import Mathlib

/-!
Verification of the NNTP client protocol engine (`src/index.ts`, with the
helper module `helpers.ts` and constants module `constants.ts`).

Modelling conventions:
* A JavaScript string is embedded as `List Char` (`Line`); the incoming wire
  is a `Stream`, the list of text lines the readline interface will yield.
* `async` methods are embedded as pure functions from the session state and
  the input stream to a result; a thrown exception is an `err` result.  An
  `await`-less call of an async method (as in `login`) is modelled as running
  to completion in call order.
* Commands written to the socket are accumulated in a `sent` trace.
* Numbers use `Int`/`Nat`; `parseInt`/`Number` results are `Option Int`
  (`none` models `NaN`); calendar normalisation performed by the JavaScript
  `Date` constructor is not modelled, a `JsDate` records the constructor
  arguments.
-/

set_option autoImplicit false

namespace NNTPSpec

/-- A JavaScript string, embedded as a list of characters. -/
abbrev Line := List Char

/-- The list of text lines the readline interface will deliver. -/
abbrev Stream := List Line

/-- Whitespace for `String.prototype.trim` (ASCII whitespace, NBSP, BOM,
Unicode space separators and line separators). -/
def isJsWhitespace (c : Char) : Bool :=
  let n := c.toNat
  n = 32 || n = 9 || n = 10 || n = 13 || n = 11 || n = 12 ||
  n = 0xa0 || n = 0x1680 || (0x2000 <= n && n <= 0x200a) ||
  n = 0x2028 || n = 0x2029 || n = 0x202f || n = 0x205f ||
  n = 0x3000 || n = 0xfeff

/-- JavaScript `s.trim()`: drop whitespace from both ends. -/
def jsTrim (s : Line) : Line :=
  ((s.dropWhile isJsWhitespace).reverse.dropWhile isJsWhitespace).reverse

/-- JavaScript `s.toLowerCase()` (ASCII-relevant part). -/
def lowerL (s : Line) : Line := s.map Char.toLower

/-- JavaScript `s.split(c)` for a single-character separator: splits on every
occurrence, so the result is always non-empty and may contain empty parts. -/
def jsSplitChar (c : Char) : Line → List Line
  | [] => [[]]
  | x :: xs =>
    if x = c then [] :: jsSplitChar c xs
    else
      match jsSplitChar c xs with
      | t :: ts => (x :: t) :: ts
      | [] => [[x]]

/-- The lines the Node readline interface (with `crlfDelay: Infinity`) yields
for a byte string: line breaks at CRLF, lone LF and lone CR; a trailing
fragment without terminator is delivered as a final line. -/
def splitLinesAux (acc : List Char) : List Char → List Line
  | [] => if acc = [] then [] else [acc.reverse]
  | '\r' :: '\n' :: rest => acc.reverse :: splitLinesAux [] rest
  | '\r' :: rest => acc.reverse :: splitLinesAux [] rest
  | '\n' :: rest => acc.reverse :: splitLinesAux [] rest
  | ch :: rest => splitLinesAux (ch :: acc) rest

/-- Split a byte string into readline lines. -/
def splitLines (s : List Char) : List Line := splitLinesAux [] s

/-- Value of a non-empty all-digit prefix, `none` when there is no digit. -/
def digitsVal (s : Line) : Option Nat :=
  let ds := s.takeWhile Char.isDigit
  if ds = [] then none
  else some (ds.foldl (fun a c => a * 10 + (c.toNat - 48)) 0)

/-- JavaScript `parseInt(s, 10)`: skip leading whitespace, optional sign,
then the longest digit prefix; `none` models `NaN`. -/
def jsParseInt (s : Line) : Option Int :=
  match s.dropWhile isJsWhitespace with
  | '-' :: rest => (digitsVal rest).map (fun n => -(n : Int))
  | '+' :: rest => (digitsVal rest).map (fun n => (n : Int))
  | rest => (digitsVal rest).map (fun n => (n : Int))

/-- Clamp a possibly negative JavaScript slice index to `[0, len]`. -/
def jsSliceIdx (len : Nat) (i : Int) : Nat :=
  if i < 0 then ((len : Int) + i).toNat else min i.toNat len

/-- JavaScript `s.slice(a, b)` with possibly negative indices. -/
def jsSlice (s : Line) (a b : Int) : Line :=
  (s.take (jsSliceIdx s.length b)).drop (jsSliceIdx s.length a)

/-- JavaScript `s.slice(a)` (one-argument form). -/
def jsSliceFrom (s : Line) (a : Int) : Line :=
  jsSlice s a (s.length : Int)

/-- Lookup in an insertion-ordered map (JavaScript object used as a map). -/
def getKey {β : Type} (m : List (Line × β)) (k : Line) : Option β :=
  (m.find? (fun p => p.1 == k)).map (fun p => p.2)

/-- Assignment `m[k] = v` on an insertion-ordered map: overwrite in place if
the key is present, otherwise append. -/
def setKey {β : Type} (m : List (Line × β)) (k : Line) (v : β) : List (Line × β) :=
  if (m.find? (fun p => p.1 == k)).isSome then
    m.map (fun p => if p.1 == k then (k, v) else p)
  else m ++ [(k, v)]

/-- NaN-propagating subtraction used for `parseInt(..) - 1`. -/
def optSub (o : Option Int) (n : Int) : Option Int := o.map (fun v => v - n)

/-- Convenience: characters of a string literal. -/
def str (s : String) : Line := s.data

/-- `LONGRESP` from `constants.ts`: response codes followed by a multi-line
payload. -/
def LONGRESP : List Line :=
  [str "100", str "101", str "211", str "215", str "220", str "221",
   str "222", str "224", str "225", str "230", str "231", str "282"]

/-- `DEFAULT_OVERVIEW_FMT` from `constants.ts`. -/
def DEFAULT_OVERVIEW_FMT : List Line :=
  [str "subject", str "from", str "date", str "message-id",
   str "references", str ":bytes", str ":lines"]

/-- `OVERVIEW_FMT_ALTERNATIVES` from `constants.ts`. -/
def OVERVIEW_FMT_ALTERNATIVES : List (Line × Line) :=
  [(str "bytes", str ":bytes"), (str "lines", str ":lines")]

/-- The error taxonomy of `exceptions.ts` plus the plain `Error` cases the
engine throws (`other`) and end-of-stream (`eof`). -/
inductive NNTPErr where
  | temporary (resp : Line)
  | permanent (resp : Line)
  | protocol (resp : Line)
  | reply (resp : Line)
  | data (msg : Line)
  | eof
  | other (msg : Line)
deriving DecidableEq

/-- The `message` property of a thrown error (an `NNTPError` stores the
response line as its message). -/
def NNTPErr.message : NNTPErr → Line
  | .temporary r => r
  | .permanent r => r
  | .protocol r => r
  | .reply r => r
  | .data m => m
  | .eof => str "End of stream"
  | .other m => m

/-- Whether an error is an `NNTPReplyError`. -/
def NNTPErr.isReply : NNTPErr → Bool
  | .reply _ => true
  | _ => false

/-- Whether an error is an `NNTPDataError`. -/
def NNTPErr.isData : NNTPErr → Bool
  | .data _ => true
  | _ => false

/-- Result of a pure read from the stream: the value (or the raised error)
together with the lines not yet consumed. -/
inductive RRes (α : Type) where
  | ok (a : α) (rest : Stream)
  | err (e : NNTPErr) (rest : Stream)
deriving DecidableEq

/-- Result of a pure helper (`helpers.ts` functions). -/
inductive PRes (α : Type) where
  | ok (a : α)
  | err (e : NNTPErr)
deriving DecidableEq

/-- A capability map: insertion-ordered `name → attribute tokens`. -/
abbrev Caps := List (Line × List Line)

/-- The mutable fields of the `NNTP` session object. -/
structure NNTPState where
  welcome : Line := []
  caps : Option Caps := none
  readermodeAfterauth : Bool := false
  tlsOn : Bool := false
  authenticated : Bool := false
  nntpVersion : Nat := 1
  nntpImplementation : Option Line := none
  cachedoverviewfmt : Option (List Line) := none
  connected : Bool := false
deriving DecidableEq

/-- The freshly constructed session object. -/
def initialState : NNTPState := {}

/-- Result of a stateful engine operation: the value (or raised error), the
session state, the unread input lines, and the command lines written. -/
inductive Res (α : Type) where
  | ok (a : α) (st : NNTPState) (rest : Stream) (sent : List Line)
  | err (e : NNTPErr) (st : NNTPState) (rest : Stream) (sent : List Line)
deriving DecidableEq

/-- The commands an operation wrote to the socket. -/
def Res.sentOf {α : Type} : Res α → List Line
  | .ok _ _ _ s => s
  | .err _ _ _ s => s

/-- The session state after an operation (exceptions leave their mutations). -/
def Res.stateOf {α : Type} : Res α → NNTPState
  | .ok _ st _ _ => st
  | .err _ st _ _ => st

/-- Whether the operation returned without throwing. -/
def Res.isOk {α : Type} : Res α → Bool
  | .ok _ _ _ _ => true
  | .err _ _ _ _ => false

/-- `_getline`: read one line from the reader and trim it; end of stream
throws. -/
def getline : Stream → RRes Line
  | [] => .err .eof []
  | l :: rest => .ok (jsTrim l) rest

/-- `_getresp`: read one response line and classify its status digit. -/
def getresp (stream : Stream) : RRes Line :=
  match getline stream with
  | .err e rest => .err e rest
  | .ok resp rest =>
    if [ '4' ].isPrefixOf resp then .err (.temporary resp) rest
    else if [ '5' ].isPrefixOf resp then .err (.permanent resp) rest
    else if !([ '1' ].isPrefixOf resp) && !([ '2' ].isPrefixOf resp) &&
            !([ '3' ].isPrefixOf resp) then .err (.protocol resp) rest
    else .ok resp rest

/-- The body of `_getlongresp`'s read loop: collect lines until the
terminator `.`, un-stuffing a leading `..`; the terminator is consumed and
not delivered. -/
def getlongrespLoop : Stream → RRes (List Line)
  | [] => .err .eof []
  | l :: rest =>
    let line := jsTrim l
    if line = [ '.' ] then .ok [] rest
    else
      let line2 := if ([ '.', '.' ]).isPrefixOf line then line.tail else line
      match getlongrespLoop rest with
      | .ok lines rem => .ok (line2 :: lines) rem
      | .err e rem => .err e rem

/-- `_getlongresp`: classify the first response line, require a long-response
code, then read the dot-terminated payload. -/
def getlongresp (stream : Stream) : RRes (Line × List Line) :=
  match getresp stream with
  | .err e rest => .err e rest
  | .ok resp rest =>
    if !(LONGRESP.contains (resp.take 3)) then .err (.reply resp) rest
    else
      match getlongrespLoop rest with
      | .ok lines rem => .ok (resp, lines) rem
      | .err e rem => .err e rem

/-- The field name a `LIST OVERVIEW.FMT` line normalizes to: for a line
starting with `:` the name is `:` plus the text up to the next `:`;
otherwise the text before the first `:`; lowercased, then the
`bytes`/`lines` aliases applied (loop body of `parseOverviewFmt` in
`helpers.ts`). -/
def fmtNameOf (line : Line) : Line :=
  let name :=
    if line.head? = some ':' then
      ':' :: (line.drop 1).takeWhile (fun c => c ≠ ':')
    else line.takeWhile (fun c => c ≠ ':')
  let name := lowerL name
  match getKey OVERVIEW_FMT_ALTERNATIVES name with
  | some alt => alt
  | none => name

/-- Message of the too-short overview format error. -/
def msgFmtTooShort : Line := str "LIST OVERVIEW.FMT response too short"

/-- Message of the redefined-defaults overview format error. -/
def msgFmtRedef : Line := str "LIST OVERVIEW.FMT redefines default fields"

/-- Message of the missing-header-name overview record error. -/
def msgOverMissing : Line :=
  str "OVER/XOVER response doesn't include names of additional headers"

/-- `parseOverviewFmt` from `helpers.ts`: normalize every line, then require
at least the seven canonical defaults as a prefix. -/
def parseOverviewFmt (lines : List Line) : PRes (List Line) :=
  let fmt := lines.map fmtNameOf
  if fmt.length < DEFAULT_OVERVIEW_FMT.length then .err (.data msgFmtTooShort)
  else if !(fmt.take DEFAULT_OVERVIEW_FMT.length == DEFAULT_OVERVIEW_FMT) then
    .err (.data msgFmtRedef)
  else .ok fmt

/-- The per-record field loop of `parseOverview` (`helpers.ts`): `toks` are
the TAB-separated fields after the article number, `i` the current index
into the descriptor `fmt`, `fields` the object built so far.  Entries past
the descriptor are discarded; a non-metadatum entry at index at least seven
must carry a case-insensitive `name: ` prefix, stripped before assignment,
except that an empty raw value bypasses both the check and the strip. -/
def overFields (fmt : List Line) : Nat → List (Line × Line) → List Line →
    PRes (List (Line × Line))
  | _, fields, [] => .ok fields
  | i, fields, tok :: toks =>
    if fmt.length ≤ i then overFields fmt (i + 1) fields toks
    else
      let fieldName := fmt.getD i []
      let isMetadata := fieldName.head? = some ':'
      if DEFAULT_OVERVIEW_FMT.length ≤ i ∧ ¬isMetadata then
        let h := fieldName ++ str ": "
        if tok ≠ [] ∧ (lowerL tok).take h.length ≠ h then .err (.data msgOverMissing)
        else
          let tok := if tok ≠ [] then tok.drop h.length else tok
          overFields fmt (i + 1) (setKey fields fieldName tok) toks
      else overFields fmt (i + 1) (setKey fields fieldName tok) toks

/-- `parseOverview` from `helpers.ts`: each record line is split on TAB, the
first field read as the article number, the rest fed to `overFields`. -/
def parseOverview (lines : List Line) (fmt : List Line) :
    PRes (List (Option Int × List (Line × Line))) :=
  match lines with
  | [] => .ok []
  | line :: more =>
    let parts := jsSplitChar '\t' line
    let articleNumberStr := parts.headD []
    let tokens := parts.tail
    let articleNumber := jsParseInt articleNumberStr
    match overFields fmt 0 [] tokens with
    | .err e => .err e
    | .ok fields =>
      match parseOverview more fmt with
      | .err e => .err e
      | .ok rest => .ok ((articleNumber, fields) :: rest)

/-- The arguments `parseDateString` passes to the `Date` constructor
(calendar normalisation is not modelled). -/
structure JsDate where
  year : Option Int
  monthIndex : Option Int
  day : Option Int
  hours : Option Int
  minutes : Option Int
  seconds : Option Int
deriving DecidableEq

/-- `parseDateString` from `helpers.ts`: slice a `yyyymmddhhmmss` string into
`Date` constructor arguments (month is passed zero-based). -/
def parseDateString (dateStr : Line) : JsDate :=
  { year := jsParseInt (jsSlice dateStr 0 4)
    monthIndex := optSub (jsParseInt (jsSlice dateStr 4 6)) 1
    day := jsParseInt (jsSlice dateStr 6 8)
    hours := jsParseInt (jsSlice dateStr (-6) (-4))
    minutes := jsParseInt (jsSlice dateStr (-4) (-2))
    seconds := jsParseInt (jsSliceFrom dateStr (-2)) }

/-- Message of the `Not connected` precondition error of `_putline`. -/
def msgNotConnected : Line := str "Not connected"

/-- `_shortcmd`: write the command line (refused when not connected), then
read and classify one response line. -/
def shortcmd (st : NNTPState) (cmd : Line) (stream : Stream) : Res Line :=
  if !st.connected then .err (.other msgNotConnected) st stream []
  else
    match getresp stream with
    | .ok resp rest => .ok resp st rest [cmd]
    | .err e rest => .err e st rest [cmd]

/-- `_longcmdstring` (via `_longcmd`): write the command line (refused when
not connected), then read a long response. -/
def longcmdstring (st : NNTPState) (cmd : Line) (stream : Stream) :
    Res (Line × List Line) :=
  if !st.connected then .err (.other msgNotConnected) st stream []
  else
    match getlongresp stream with
    | .ok rl rest => .ok rl st rest [cmd]
    | .err e rest => .err e st rest [cmd]

/-- The `CAPABILITIES` command line. -/
def cmdCapabilities : Line := str "CAPABILITIES"

/-- Build the capability map from the payload lines: the first
space-separated token is the name, the rest are its attributes. -/
def buildCaps (lines : List Line) : Caps :=
  lines.foldl
    (fun caps line =>
      let parts := jsSplitChar ' ' line
      setKey caps (parts.headD []) parts.tail)
    []

/-- `capabilities`: issue `CAPABILITIES` and parse the returned lines. -/
def capabilities (st : NNTPState) (stream : Stream) : Res (Line × Caps) :=
  match longcmdstring st cmdCapabilities stream with
  | .ok (resp, lines) st2 rest sent => .ok (resp, buildCaps lines) st2 rest sent
  | .err e st2 rest sent => .err e st2 rest sent

/-- The `VERSION` capability key. -/
def capVERSION : Line := str "VERSION"

/-- The `IMPLEMENTATION` capability key. -/
def capIMPLEMENTATION : Line := str "IMPLEMENTATION"

/-- The `READER` capability key. -/
def capREADER : Line := str "READER"

/-- `Math.max(...caps.VERSION.map(Number))` for all-numeric version tokens. -/
def maxVersion (toks : List Line) : Nat :=
  (toks.map (fun t => ((jsParseInt t).getD 0).toNat)).foldl Nat.max 0

/-- `caps.IMPLEMENTATION.join(' ')`. -/
def joinSpace (toks : List Line) : Line :=
  match toks with
  | [] => []
  | t :: ts => ts.foldl (fun acc u => acc ++ ' ' :: u) t

/-- `getcapabilities`: serve the cached map if present; otherwise reset the
derived fields, run the `CAPABILITIES` exchange, and on any error swallow it
and cache an empty map. -/
def getcapabilities (st : NNTPState) (stream : Stream) : Res Caps :=
  match st.caps with
  | some caps => .ok caps st stream []
  | none =>
    let st1 := { st with nntpVersion := 1, nntpImplementation := none }
    match capabilities st1 stream with
    | .ok (_, caps) st2 rest sent =>
      let st3 := { st2 with
        caps := some caps
        nntpVersion :=
          match getKey caps capVERSION with
          | some toks => maxVersion toks
          | none => st2.nntpVersion
        nntpImplementation :=
          match getKey caps capIMPLEMENTATION with
          | some toks => some (joinSpace toks)
          | none => st2.nntpImplementation }
      .ok caps st3 rest sent
    | .err _ st2 rest sent => .ok [] ({ st2 with caps := some [] }) rest sent

/-- The `mode reader` command line. -/
def cmdModeReader : Line := str "mode reader"

/-- `_setreadermode`: issue `mode reader`; on success store the reply as the
welcome banner; a thrown error whose message starts with `480` sets the
`readermodeAfterauth` flag, any other error propagates. -/
def setreadermode (st : NNTPState) (stream : Stream) : Res Unit :=
  match shortcmd st cmdModeReader stream with
  | .ok resp st2 rest sent => .ok () ({ st2 with welcome := resp }) rest sent
  | .err e st2 rest sent =>
    if (str "480").isPrefixOf e.message then
      .ok () ({ st2 with readermodeAfterauth := true }) rest sent
    else .err e st2 rest sent

/-- The capability-reload tail of `login` (`this._caps = undefined;
this.getcapabilities(); if (readermodeAfterauth && !caps.READER) ...`); the
un-awaited calls are modelled as completing in call order. -/
def loginTail (st : NNTPState) (stream : Stream) (sent : List Line) : Res Unit :=
  let st := { st with caps := none }
  match getcapabilities st stream with
  | .err e st2 rest s2 => .err e st2 rest (sent ++ s2)
  | .ok caps st2 rest s2 =>
    if st2.readermodeAfterauth ∧ getKey caps capREADER = none then
      match setreadermode st2 rest with
      | .err e st3 rest3 s3 => .err e st3 rest3 (sent ++ s2 ++ s3)
      | .ok _ st3 rest3 s3 =>
        let st3 := { st3 with caps := none }
        match getcapabilities st3 rest3 with
        | .err e st4 rest4 s4 => .err e st4 rest4 (sent ++ s2 ++ s3 ++ s4)
        | .ok _ st4 rest4 s4 => .ok () st4 rest4 (sent ++ s2 ++ s3 ++ s4)
    else .ok () st2 rest (sent ++ s2)

/-- Message of the repeated-login precondition error. -/
def msgAlreadyLoggedIn : Line := str "Already logged in."

/-- Message of the missing-user precondition error. -/
def msgUserRequired : Line := str "`user` must be specified"

/-- The `authinfo user` command line. -/
def cmdAuthinfoUser (user : Line) : Line := str "authinfo user " ++ user

/-- The `authinfo pass` command line. -/
def cmdAuthinfoPass (password : Line) : Line := str "authinfo pass " ++ password

/-- `login` from `index.ts`: refuse when already authenticated or without a
user; send `AUTHINFO USER`, on `381` require and send the password and
require `281`; then invalidate and reload capabilities.  (The source never
assigns `authenticated = true` on any path.) -/
def login (st : NNTPState) (user password : Option Line) (stream : Stream) :
    Res Unit :=
  if st.authenticated then .err (.other msgAlreadyLoggedIn) st stream []
  else if user.getD [] = [] then .err (.other msgUserRequired) st stream []
  else
    match shortcmd st (cmdAuthinfoUser (user.getD [])) stream with
    | .err e st2 rest sent => .err e st2 rest sent
    | .ok resp st2 rest sent =>
      if (str "381").isPrefixOf resp then
        if password.getD [] = [] then .err (.reply resp) st2 rest sent
        else
          match shortcmd st2 (cmdAuthinfoPass (password.getD [])) rest with
          | .err e st3 rest3 s3 => .err e st3 rest3 (sent ++ s3)
          | .ok resp2 st3 rest3 s3 =>
            if !((str "281").isPrefixOf resp2) then
              .err (.permanent resp2) st3 rest3 (sent ++ s3)
            else loginTail st3 rest3 (sent ++ s3)
      else loginTail st2 rest sent

/-- Message of the TLS-already-enabled precondition error. -/
def msgTlsAlreadyOn : Line := str "TLS is already enabled."

/-- Message of the TLS-after-authentication precondition error. -/
def msgTlsAfterAuth : Line := str "TLS cannot be started after authentication."

/-- Message of the TLS-refused error. -/
def msgTlsFailed : Line := str "TLS failed to start."

/-- The `STARTTLS` command line. -/
def cmdSTARTTLS : Line := str "STARTTLS"

/-- `starttls` from `index.ts`: preconditions, issue `STARTTLS`, and on `382`
upgrade the socket (the handshake is modelled as succeeding), set the flags,
invalidate and reload capabilities; any other classified reply fails
without touching the transport. -/
def starttls (st : NNTPState) (stream : Stream) : Res Unit :=
  if st.tlsOn then .err (.other msgTlsAlreadyOn) st stream []
  else if st.authenticated then .err (.other msgTlsAfterAuth) st stream []
  else
    match shortcmd st cmdSTARTTLS stream with
    | .err e st2 rest sent => .err e st2 rest sent
    | .ok resp st2 rest sent =>
      if (str "382").isPrefixOf resp then
        let st3 := { st2 with connected := true, tlsOn := true, caps := none }
        match getcapabilities st3 rest with
        | .err e st4 rest4 s4 => .err e st4 rest4 (sent ++ s4)
        | .ok _ st4 rest4 s4 => .ok () st4 rest4 (sent ++ s4)
      else .err (.other msgTlsFailed) st2 rest sent

/-- The `DATE` command line. -/
def cmdDATE : Line := str "DATE"

/-- `date` from `index.ts`: issue `DATE`, require a `111` reply of exactly
two space-separated tokens whose second has fourteen characters, and parse
it. -/
def date (st : NNTPState) (stream : Stream) : Res (Line × JsDate) :=
  match shortcmd st cmdDATE stream with
  | .err e st2 rest sent => .err e st2 rest sent
  | .ok resp st2 rest sent =>
    if !((str "111").isPrefixOf resp) then .err (.reply resp) st2 rest sent
    else
      let elem := jsSplitChar ' ' resp
      if elem.length ≠ 2 then .err (.data resp) st2 rest sent
      else
        let d := elem.getD 1 []
        if d.length ≠ 14 then .err (.data resp) st2 rest sent
        else .ok (resp, parseDateString d) st2 rest sent

/-- The processing `_post` applies to one caller-supplied line before writing
it: append CRLF when missing, prefix an extra dot when the line starts with
one. -/
def stuffLine (s : Line) : Line :=
  let s1 := if (str "\r\n").isSuffixOf s then s else s ++ str "\r\n"
  if ([ '.' ]).isPrefixOf s1 then '.' :: s1 else s1

/-- The byte string `_post` writes after the continuation reply: every data
line stuffed, then the lone dot terminator line. -/
def postData (data : List Line) : List Char :=
  (data.map stuffLine).flatten ++ str ".\r\n"

/-- `connect` from `index.ts`, from the session state it is entered with:
read the welcome banner, load capabilities, optionally negotiate reader
mode (reloading capabilities when it succeeded at once), finally mark the
session connected.  Socket creation is not modelled. -/
def connect (st : NNTPState) (readermode : Bool) (stream : Stream) : Res Unit :=
  match getresp stream with
  | .err e rest => .err e st rest []
  | .ok welcome rest =>
    let st := { st with welcome := welcome, caps := none }
    match getcapabilities st rest with
    | .err e st2 rest2 s1 => .err e st2 rest2 s1
    | .ok caps st2 rest2 s1 =>
      let st2 := { st2 with readermodeAfterauth := false }
      if readermode ∧ getKey caps capREADER = none then
        match setreadermode st2 rest2 with
        | .err e st3 rest3 s2 => .err e st3 rest3 (s1 ++ s2)
        | .ok _ st3 rest3 s2 =>
          if !st3.readermodeAfterauth then
            let st3 := { st3 with caps := none }
            match getcapabilities st3 rest3 with
            | .err e st4 rest4 s3 => .err e st4 rest4 (s1 ++ s2 ++ s3)
            | .ok _ st4 rest4 s3 =>
              .ok () ({ st4 with connected := true }) rest4 (s1 ++ s2 ++ s3)
          else .ok () ({ st3 with connected := true }) rest3 (s1 ++ s2)
      else .ok () ({ st2 with connected := true }) rest2 s1

/-- The error a long command fails with when the first response line does
not carry a long-response code: the classifier errors for `4xx`, `5xx` and
unclassifiable lines, a reply error for a classified short response. -/
def classifyFail (resp : Line) : NNTPErr :=
  if ([ '4' ]).isPrefixOf resp then .temporary resp
  else if ([ '5' ]).isPrefixOf resp then .permanent resp
  else if !([ '1' ].isPrefixOf resp) && !([ '2' ].isPrefixOf resp) &&
          !([ '3' ].isPrefixOf resp) then .protocol resp
  else .reply resp

/-- An article line that the wire transports verbatim: free of CR and LF and
unchanged by trimming. -/
def cleanLine (s : Line) : Prop :=
  ('\r' ∉ s) ∧ ('\n' ∉ s) ∧ jsTrim s = s

instance (s : Line) : Decidable (cleanLine s) := by
  unfold cleanLine
  infer_instance

/-- The line as it stands on the wire between CRLF delimiters after
stuffing: a leading dot doubled. -/
def frameLine (s : Line) : Line :=
  if ([ '.' ]).isPrefixOf s then '.' :: s else s

/-- Strip trailing whitespace (step 1 of the spec's normalization). -/
def stripTrailingWs (s : Line) : Line :=
  (s.reverse.dropWhile isJsWhitespace).reverse

/-- Spec wording: a leading `:` marks a metadatum. -/
def isMetadatumName (name : Line) : Bool := name.head? == some ':'

/-- Spec wording for one overview value (with the bypass the code grants an
empty raw value): a non-metadatum descriptor entry at index at least seven
must begin case-insensitively with `name: `, which is stripped. -/
def specFieldValue (i : Nat) (name tok : Line) : PRes Line :=
  if DEFAULT_OVERVIEW_FMT.length ≤ i ∧ isMetadatumName name = false ∧ tok ≠ [] then
    let p := name ++ str ": "
    if lowerL (tok.take p.length) = lowerL p then .ok (tok.drop p.length)
    else .err (.data msgOverMissing)
  else .ok tok

/-- Spec wording: assign values positionally to descriptor entries, applying
`specFieldValue` at each position. -/
def specAssign : Nat → List (Line × Line) → List (Line × Line) →
    PRes (List (Line × Line))
  | _, fields, [] => .ok fields
  | i, fields, (name, tok) :: rest =>
    match specFieldValue i name tok with
    | .err e => .err e
    | .ok v => specAssign (i + 1) (setKey fields name v) rest

/-- Spec wording for the overview parser: split each record on TAB, read the
first field as the article number, pair the remaining fields positionally
with the descriptor (extras beyond the descriptor are discarded). -/
def specParseOverview (lines : List Line) (fmt : List Line) :
    PRes (List (Option Int × List (Line × Line))) :=
  match lines with
  | [] => .ok []
  | line :: more =>
    let parts := jsSplitChar '\t' line
    match specAssign 0 [] (fmt.zip parts.tail) with
    | .err e => .err e
    | .ok fields =>
      match specParseOverview more fmt with
      | .err e => .err e
      | .ok rest => .ok ((jsParseInt (parts.headD []), fields) :: rest)

/-- A one-character prefix test is a test on the head. -/
theorem isPrefixOf_singleton (a : Char) (l : Line) :
    [ a ].isPrefixOf l = match l with | [] => false | c :: _ => a == c := by
  cases l <;> simp [List.isPrefixOf]

/-- C8.  Classification of a response line by `_getresp`: a line whose first
character is `4` raises a temporary error, `5` a permanent error, a line
starting with none of `1`..`5` a protocol error, and any other line is
returned unchanged to the command layer. -/
theorem response_classification (l : Line) (rest : Stream) :
    getresp (l :: rest) =
      (if (jsTrim l).head? = some '4' then .err (.temporary (jsTrim l)) rest
       else if (jsTrim l).head? = some '5' then .err (.permanent (jsTrim l)) rest
       else if (jsTrim l).head? = some '1' ∨ (jsTrim l).head? = some '2' ∨
               (jsTrim l).head? = some '3' then .ok (jsTrim l) rest
       else .err (.protocol (jsTrim l)) rest) := by
  dsimp only [getresp, getline]
  generalize jsTrim l = r
  rcases r with _ | ⟨c, t⟩
  case nil => simp [isPrefixOf_singleton]
  case cons =>
    simp only [isPrefixOf_singleton, List.head?_cons]
    by_cases h4 : c = '4'
    case pos => subst h4; simp
    by_cases h5 : c = '5'
    case pos => subst h5; simp
    by_cases h1 : c = '1'
    case pos => subst h1; simp
    by_cases h2 : c = '2'
    case pos => subst h2; simp
    by_cases h3 : c = '3'
    case pos => subst h3; simp
    have g4 : ('4' == c) = false := beq_eq_false_iff_ne.mpr (Ne.symm h4)
    have g5 : ('5' == c) = false := beq_eq_false_iff_ne.mpr (Ne.symm h5)
    have g1 : ('1' == c) = false := beq_eq_false_iff_ne.mpr (Ne.symm h1)
    have g2 : ('2' == c) = false := beq_eq_false_iff_ne.mpr (Ne.symm h2)
    have g3 : ('3' == c) = false := beq_eq_false_iff_ne.mpr (Ne.symm h3)
    simp [g4, g5, g1, g2, g3, h1, h2, h3, h4, h5]

/-- Every long-response code starts with the digit 1 or 2. -/
theorem longresp_head (resp : Line) (h : LONGRESP.contains (resp.take 3) = true) :
    resp.head? = some '1' ∨ resp.head? = some '2' := by
  rcases resp with _ | ⟨a, t⟩
  · exfalso; revert h; decide
  · by_contra hcon
    push_neg at hcon
    obtain ⟨n1, n2⟩ := hcon
    simp only [List.head?_cons, Option.some_inj] at n1 n2
    rw [show LONGRESP = [[ '1', '0', '0' ], [ '1', '0', '1' ], [ '2', '1', '1' ],
      [ '2', '1', '5' ], [ '2', '2', '0' ], [ '2', '2', '1' ], [ '2', '2', '2' ],
      [ '2', '2', '4' ], [ '2', '2', '5' ], [ '2', '3', '0' ], [ '2', '3', '1' ],
      [ '2', '8', '2' ]] from by decide] at h
    simp only [List.take_succ_cons, List.contains_cons, List.contains_nil,
      List.cons_beq_cons, Bool.or_eq_true, Bool.and_eq_true, beq_iff_eq] at h
    rcases h with h | h | h | h | h | h | h | h | h | h | h | h <;> simp_all

/-- C1 (amended).  The long-command path after the first response line: a
status code in the long-response set leads to exactly the dot-terminated
payload read; any other line fails without consuming further input, with
the classifier error for `4xx`/`5xx`/unclassifiable lines and a reply error
for a classified short response. -/
theorem long_command_classification (l : Line) (rest : Stream) :
    getlongresp (l :: rest) =
      (if LONGRESP.contains ((jsTrim l).take 3) then
         match getlongrespLoop rest with
         | .ok lines rem => .ok (jsTrim l, lines) rem
         | .err e rem => .err e rem
       else .err (classifyFail (jsTrim l)) rest) := by
  dsimp only [getlongresp, getresp, getline]
  generalize jsTrim l = r
  by_cases hmem : LONGRESP.contains (r.take 3) = true
  · have h12 := longresp_head r hmem
    have g4 : ([ '4' ].isPrefixOf r) = false := by
      rcases h12 with h | h <;> rcases r with _ | ⟨a, t⟩ <;>
        simp_all [isPrefixOf_singleton]
    have g5 : ([ '5' ].isPrefixOf r) = false := by
      rcases h12 with h | h <;> rcases r with _ | ⟨a, t⟩ <;>
        simp_all [isPrefixOf_singleton]
    have g123 : (!([ '1' ].isPrefixOf r) && !([ '2' ].isPrefixOf r) &&
        !([ '3' ].isPrefixOf r)) = false := by
      rcases h12 with h | h <;> rcases r with _ | ⟨a, t⟩ <;>
        simp_all [isPrefixOf_singleton]
    have hm2 : List.take 3 r ∈ LONGRESP := by simpa using hmem
    simp [g4, g5, g123, hm2]
  · have hm2 : List.take 3 r ∉ LONGRESP := by simpa using hmem
    by_cases c4 : ([ '4' ].isPrefixOf r) = true
    · simp [c4, hm2, classifyFail]
    by_cases c5 : ([ '5' ].isPrefixOf r) = true
    · simp [c4, c5, hm2, classifyFail]
    by_cases c123 : (!([ '1' ].isPrefixOf r) && !([ '2' ].isPrefixOf r) &&
        !([ '3' ].isPrefixOf r)) = true
    · simp [c4, c5, c123, hm2, classifyFail]
    · simp [c4, c5, c123, hm2, classifyFail]

/-- C1 (counterexample to the claim as stated).  A `440` reply to a long
command is not in the long-response set, yet the failure raised is an
`NNTPTemporaryError`, not the `NNTPReplyError` the claim names; no further
line is read. -/
theorem long_command_counterexample :
    getlongresp [str "440 retry", str "x"] =
      .err (.temporary (str "440 retry")) [str "x"] ∧
    NNTPErr.isReply (.temporary (str "440 retry")) = false ∧
    LONGRESP.contains ((str "440 retry").take 3) = false := by decide

/-- Trim-invariance of a string forces both of its dropWhile passes to be
identities. -/
theorem dropWhile_eq_self_of_jsTrim (s : Line) (h : jsTrim s = s) :
    s.dropWhile isJsWhitespace = s ∧ s.reverse.dropWhile isJsWhitespace = s.reverse := by
  have l1 : (s.dropWhile isJsWhitespace).length ≤ s.length :=
    (List.dropWhile_sublist _).length_le
  have hlen : (jsTrim s).length = s.length := by rw [h]
  have l2 : ((s.dropWhile isJsWhitespace).reverse.dropWhile isJsWhitespace).length ≤
      (s.dropWhile isJsWhitespace).length := by
    have := (List.dropWhile_sublist (l := (s.dropWhile isJsWhitespace).reverse)
      isJsWhitespace).length_le
    simpa using this
  have hlen2 : (jsTrim s).length =
      ((s.dropWhile isJsWhitespace).reverse.dropWhile isJsWhitespace).length := by
    unfold jsTrim; simp
  have e1 : (s.dropWhile isJsWhitespace).length = s.length := by omega
  have d1 : s.dropWhile isJsWhitespace = s := (List.dropWhile_sublist _).eq_of_length e1
  refine ⟨d1, ?_⟩
  have h2 : (s.reverse.dropWhile isJsWhitespace).reverse = s := by
    have : jsTrim s = (s.reverse.dropWhile isJsWhitespace).reverse := by
      unfold jsTrim; rw [d1]
    rw [← this, h]
  have := congrArg List.reverse h2
  simpa using this

/-- A list fixed by dropWhile does not start with a matching element. -/
theorem head_not_ws_of_dropWhile (c : Char) (t : Line)
    (h : (c :: t).dropWhile isJsWhitespace = c :: t) : isJsWhitespace c = false := by
  by_contra hc
  rw [Bool.not_eq_false] at hc
  rw [List.dropWhile_cons_of_pos hc] at h
  have hlen := congrArg List.length h
  have hle : (t.dropWhile isJsWhitespace).length ≤ t.length :=
    (List.dropWhile_sublist _).length_le
  simp at hlen
  omega

/-- Prefixing a non-whitespace character preserves trim-invariance. -/
theorem jsTrim_cons (c : Char) (hc : isJsWhitespace c = false) (s : Line)
    (h : jsTrim s = s) : jsTrim (c :: s) = c :: s := by
  obtain ⟨d1, d2⟩ := dropWhile_eq_self_of_jsTrim s h
  unfold jsTrim
  rw [List.dropWhile_cons_of_neg (by simp [hc])]
  rcases hs : s.reverse with _ | ⟨b, r⟩
  · have : s = [] := by simpa using congrArg List.reverse hs
    subst this
    simp [hc]
  · have hb : isJsWhitespace b = false := by
      rw [hs] at d2; exact head_not_ws_of_dropWhile b r d2
    have hs' : s = r.reverse ++ [ b ] := by
      have := congrArg List.reverse hs
      simpa using this
    simp only [List.reverse_cons, hs, List.cons_append]
    rw [List.dropWhile_cons_of_neg (by simp [hb])]
    simp [hs']

/-- The readline splitter ignores an ordinary character into the current
line. -/
theorem splitLinesAux_cons_other (acc : List Char) (c : Char) (xs : List Char)
    (h1 : c ≠ '\r') (h2 : c ≠ '\n') :
    splitLinesAux acc (c :: xs) = splitLinesAux (c :: acc) xs := by
  rcases xs with _ | ⟨d, ys⟩ <;> simp [splitLinesAux, h1, h2]

/-- The readline splitter cuts exactly at the CRLF after a CR/LF-free
fragment. -/
theorem splitLinesAux_clean (s : List Char) : ∀ (acc rest : List Char),
    '\r' ∉ s → '\n' ∉ s →
    splitLinesAux acc (s ++ '\r' :: '\n' :: rest) =
      (acc.reverse ++ s) :: splitLinesAux [] rest := by
  induction s with
  | nil => intro acc rest h1 h2; simp [splitLinesAux]
  | cons c t ih =>
    intro acc rest h1 h2
    have hc1 : c ≠ '\r' := by intro hh; exact h1 (by simp [hh])
    have hc2 : c ≠ '\n' := by intro hh; exact h2 (by simp [hh])
    rw [List.cons_append, splitLinesAux_cons_other _ _ _ hc1 hc2,
      ih (c :: acc) rest (fun hm => h1 (List.mem_cons_of_mem _ hm))
        (fun hm => h2 (List.mem_cons_of_mem _ hm))]
    simp

/-- On a CR-free line, `_post`'s per-line processing appends CRLF to the
dot-stuffed frame. -/
theorem stuffLine_clean (s : Line) (h1 : '\r' ∉ s) :
    stuffLine s = frameLine s ++ [ '\r', '\n' ] := by
  unfold stuffLine
  have hsuf : ((str "\r\n").isSuffixOf s) = false := by
    by_contra hx
    rw [Bool.not_eq_false, List.isSuffixOf_iff_suffix] at hx
    exact h1 (hx.mem (by decide))
  simp only [hsuf, Bool.false_eq_true, if_false]
  have hpre : ([ '.' ].isPrefixOf (s ++ str "\r\n")) = ([ '.' ].isPrefixOf s) := by
    rcases s with _ | ⟨c, t⟩
    · decide
    · simp [isPrefixOf_singleton]
  rw [hpre]
  unfold frameLine
  split <;> simp [str]

/-- Stuffing introduces no CR. -/
theorem frameLine_no_cr (s : Line) (h1 : '\r' ∉ s) : '\r' ∉ frameLine s := by
  unfold frameLine
  split <;> simp_all

/-- Stuffing introduces no LF. -/
theorem frameLine_no_lf (s : Line) (h1 : '\n' ∉ s) : '\n' ∉ frameLine s := by
  unfold frameLine
  split <;> simp_all

/-- A stuffed clean line is still trim-invariant. -/
theorem frameLine_trim (s : Line) (h : jsTrim s = s) :
    jsTrim (frameLine s) = frameLine s := by
  unfold frameLine
  split
  · exact jsTrim_cons '.' (by decide) s h
  · exact h

/-- No stuffed line equals the terminator line. -/
theorem frameLine_ne_dot (s : Line) : frameLine s ≠ [ '.' ] := by
  unfold frameLine
  split
  case isTrue hx =>
    intro he
    rcases s with _ | ⟨c, t⟩
    · exact absurd hx (by decide)
    · simp at he
  case isFalse hx =>
    intro he
    subst he
    exact hx (by decide)

/-- Un-stuffing a stuffed line restores the original. -/
theorem frameLine_unstuff (s : Line) :
    (if ([ '.', '.' ]).isPrefixOf (frameLine s) then (frameLine s).tail
     else frameLine s) = s := by
  unfold frameLine
  by_cases hx : ([ '.' ].isPrefixOf s) = true
  · rw [if_pos hx]
    rw [if_pos (by simp [List.isPrefixOf, hx])]
    simp
  · rw [if_neg hx]
    have h2 : (([ '.', '.' ]).isPrefixOf s) = false := by
      rcases s with _ | ⟨c, t⟩
      · decide
      · have hcc : ('.' == c) = false := by simpa [isPrefixOf_singleton] using hx
        simp [List.isPrefixOf, hcc]
    rw [if_neg (by simp [h2])]

/-- The wire written by `_post` frames into exactly the stuffed lines
followed by the terminator line. -/
theorem splitLines_postData (B : List Line) (h : ∀ s ∈ B, cleanLine s) :
    splitLines (postData B) = (B.map frameLine) ++ [[ '.' ]] := by
  induction B with
  | nil => decide
  | cons s B ih =>
    obtain ⟨h1, h2, h3⟩ := h s (by simp)
    have hrest := ih (fun x hx => h x (by simp [hx]))
    unfold postData at hrest ⊢
    simp only [List.map_cons, List.flatten_cons, List.append_assoc]
    rw [stuffLine_clean s h1]
    unfold splitLines at hrest ⊢
    rw [List.append_assoc]
    rw [show (([ '\r', '\n' ] : List Char) ++ ((B.map stuffLine).flatten ++ str ".\r\n")) =
      '\r' :: '\n' :: ((B.map stuffLine).flatten ++ str ".\r\n") from rfl]
    rw [splitLinesAux_clean (frameLine s) [] _ (frameLine_no_cr s h1) (frameLine_no_lf s h2)]
    simp [hrest]

/-- The multi-line reader recovers the original lines from the stuffed
frames and stops at the terminator without delivering it. -/
theorem getlongrespLoop_frames (B : List Line) (h : ∀ s ∈ B, cleanLine s) :
    getlongrespLoop ((B.map frameLine) ++ [[ '.' ]]) = .ok B [] := by
  induction B with
  | nil => decide
  | cons s B ih =>
    obtain ⟨h1, h2, h3⟩ := h s (by simp)
    simp only [List.map_cons, List.cons_append]
    unfold getlongrespLoop
    rw [frameLine_trim s h3]
    rw [if_neg (frameLine_ne_dot s)]
    rw [frameLine_unstuff]
    rw [ih (fun x hx => h x (by simp [hx]))]

/-- C2 (amended).  Dot-stuffing round-trips: for a body whose lines are free
of CR and LF and unchanged by trimming, posting the body and reading the
wire back through the multi-line reader yields exactly the body, consuming
the terminator line without delivering it. -/
theorem dot_stuffing_roundtrip (B : List Line) (h : ∀ s ∈ B, cleanLine s) :
    getlongrespLoop (splitLines (postData B)) = .ok B [] := by
  rw [splitLines_postData B h, getlongrespLoop_frames B h]

/-- C2 (counterexample to the claim as stated).  A body line with trailing
whitespace does not round-trip: the reader trims each received line, so
posting the single line `a ` reads back as `a`. -/
theorem dot_stuffing_counterexample :
    getlongrespLoop (splitLines (postData [str "a "])) = .ok [str "a"] [] ∧
    str "a" ≠ str "a " := by decide

/-- C2 witness: the round-trip theorem applied to a concrete body with a
dot-stuffed line and an empty line. -/
theorem dot_stuffing_roundtrip_witness :
    (∀ s ∈ [str "Hello", str ".quiet", str ""], cleanLine s) ∧
    getlongrespLoop (splitLines (postData [str "Hello", str ".quiet", str ""])) =
      .ok [str "Hello", str ".quiet", str ""] [] :=
  ⟨by decide, dot_stuffing_roundtrip _ (by decide)⟩

/-- C3 (the code contradicts the claim).  A fully successful login exchange
(`381` to `AUTHINFO USER` then `281` to `AUTHINFO PASS`, and likewise `281`
to `AUTHINFO USER` alone) returns without error, yet the session's
`authenticated` flag stays `false`: no assignment `authenticated = true`
exists anywhere in the source. -/
theorem login_leaves_authenticated_false :
    ((login { initialState with connected := true } (some (str "alice"))
        (some (str "s3cret"))
        [str "381 password required", str "281 ok", str "101 capabilities follow",
         str "VERSION 2", str "."]).isOk = true ∧
      ((login { initialState with connected := true } (some (str "alice"))
        (some (str "s3cret"))
        [str "381 password required", str "281 ok", str "101 capabilities follow",
         str "VERSION 2", str "."]).stateOf).authenticated = false) ∧
    ((login { initialState with connected := true } (some (str "bob")) none
        [str "281 ok", str "101 capabilities follow", str "."]).isOk = true ∧
      ((login { initialState with connected := true } (some (str "bob")) none
        [str "281 ok", str "101 capabilities follow", str "."]).stateOf).authenticated
        = false) := by decide

/-- C9.  `getcapabilities` never raises: with a cached map it serves the
cache, and when the `CAPABILITIES` exchange fails for any reason it swallows
the error and returns the empty capability map, leaving `nntp_version` at
its default 1 and `nntp_implementation` absent. -/
theorem getcapabilities_swallows_errors :
    (∀ (st : NNTPState) (stream : Stream), (getcapabilities st stream).isOk = true) ∧
    (∀ (st : NNTPState) (stream : Stream) (e : NNTPErr) (rest : Stream),
      st.caps = none → st.connected = true → getlongresp stream = .err e rest →
      getcapabilities st stream =
        .ok [] ({ st with nntpVersion := 1,
                          nntpImplementation := none,
                          caps := some [] }) rest [cmdCapabilities]) := by
  constructor
  · intro st stream
    unfold getcapabilities
    split
    · simp [Res.isOk]
    · dsimp only
      split <;> simp [Res.isOk]
  · intro st stream e rest h1 h2 h3
    unfold getcapabilities capabilities longcmdstring
    simp [h1, h2, h3]

/-- C9 witness: a `500` reply to `CAPABILITIES` is swallowed and the empty
map cached. -/
theorem getcapabilities_swallows_errors_witness :
    getcapabilities { initialState with connected := true } [str "500 no"] =
      .ok [] ({ initialState with connected := true,
                                  nntpVersion := 1,
                                  nntpImplementation := none,
                                  caps := some [] }) [] [cmdCapabilities] :=
  (getcapabilities_swallows_errors.2 { initialState with connected := true }
    [str "500 no"] (.permanent (str "500 no")) [] (by decide) (by decide)
    (by decide)).trans (by decide)

/-- C10.  In the overview parser, an empty raw value for a non-metadatum
descriptor entry at index at least seven bypasses the mandatory
`name: ` prefix check: no error is raised and the field is assigned the
empty value. -/
theorem overview_empty_value_bypass (name : Line) (hmeta : name.head? ≠ some ':') :
    parseOverview [str "123\tS\tF\tD\tM\tR\t12\t34\t"] (DEFAULT_OVERVIEW_FMT ++ [ name ]) =
      .ok [(some 123, setKey [(str "subject", str "S"), (str "from", str "F"),
        (str "date", str "D"), (str "message-id", str "M"), (str "references", str "R"),
        (str ":bytes", str "12"), (str ":lines", str "34")] name [])] := by
  have key : overFields (DEFAULT_OVERVIEW_FMT ++ [ name ]) 7
      [(str "subject", str "S"), (str "from", str "F"), (str "date", str "D"),
       (str "message-id", str "M"), (str "references", str "R"),
       (str ":bytes", str "12"), (str ":lines", str "34")] [ [] ] =
      .ok (setKey [(str "subject", str "S"), (str "from", str "F"), (str "date", str "D"),
       (str "message-id", str "M"), (str "references", str "R"),
       (str ":bytes", str "12"), (str ":lines", str "34")] name []) := by
    unfold overFields
    rw [if_neg (by simp [DEFAULT_OVERVIEW_FMT])]
    rw [show (DEFAULT_OVERVIEW_FMT ++ [ name ]).getD 7 [] = name from by
      simp [DEFAULT_OVERVIEW_FMT]]
    rw [if_pos (And.intro (by simp [DEFAULT_OVERVIEW_FMT]) hmeta)]
    rw [if_neg (by simp)]
    rfl
  have key0 : overFields (DEFAULT_OVERVIEW_FMT ++ [ name ]) 0 []
      [str "S", str "F", str "D", str "M", str "R", str "12", str "34", []] =
      .ok (setKey [(str "subject", str "S"), (str "from", str "F"), (str "date", str "D"),
       (str "message-id", str "M"), (str "references", str "R"),
       (str ":bytes", str "12"), (str ":lines", str "34")] name []) := by
    have step : overFields (DEFAULT_OVERVIEW_FMT ++ [ name ]) 0 []
        [str "S", str "F", str "D", str "M", str "R", str "12", str "34", []] =
        overFields (DEFAULT_OVERVIEW_FMT ++ [ name ]) 7
        [(str "subject", str "S"), (str "from", str "F"), (str "date", str "D"),
         (str "message-id", str "M"), (str "references", str "R"),
         (str ":bytes", str "12"), (str ":lines", str "34")] [ [] ] := rfl
    rw [step, key]
  show ((match overFields (DEFAULT_OVERVIEW_FMT ++ [ name ]) 0 []
      [str "S", str "F", str "D", str "M", str "R", str "12", str "34", []] with
    | PRes.err e => PRes.err e
    | PRes.ok fields => PRes.ok [((some 123 : Option Int), fields)]) :
      PRes (List (Option Int × List (Line × Line)))) = _
  rw [key0]

/-- C10 witness: the bypass at the concrete extension field `xref`. -/
theorem overview_empty_value_bypass_witness :
    (str "xref").head? ≠ some ':' ∧
    parseOverview [str "123\tS\tF\tD\tM\tR\t12\t34\t"]
        (DEFAULT_OVERVIEW_FMT ++ [ str "xref" ]) =
      .ok [(some 123, setKey [(str "subject", str "S"), (str "from", str "F"),
        (str "date", str "D"), (str "message-id", str "M"), (str "references", str "R"),
        (str ":bytes", str "12"), (str ":lines", str "34")] (str "xref") [])] :=
  ⟨by decide, overview_empty_value_bypass (str "xref") (by decide)⟩

/-- C5 (counterexample to the claim as stated).  The parser does not strip
trailing whitespace: on a reply whose first line is `subject ` it raises a
`DataError`, although the claim's normalization (with stripping) yields
exactly the seven canonical defaults and so predicts success. -/
theorem overview_fmt_strip_counterexample :
    parseOverviewFmt [str "subject ", str "from", str "date", str "message-id",
      str "references", str ":bytes", str ":lines"] = .err (.data msgFmtRedef) ∧
    (([str "subject ", str "from", str "date", str "message-id",
      str "references", str ":bytes", str ":lines"].map
        (fun l => fmtNameOf (stripTrailingWs l))).take 7 = DEFAULT_OVERVIEW_FMT) := by
  decide

/-- C5 (amended).  The overview-format parser returns exactly the list of
per-line normalized names (`fmtNameOf`: metadatum lines keep `:` plus the
text up to the next `:`, header lines the text before the first `:`,
lowercased, `bytes`/`lines` aliased; no whitespace stripping), failing with
a `DataError` exactly when the list has fewer than seven entries or its
first seven differ from the canonical defaults. -/
theorem overview_fmt_validation (lines : List Line) :
    (parseOverviewFmt lines = .ok (lines.map fmtNameOf) ∨
      (∃ m, parseOverviewFmt lines = .err (.data m))) ∧
    (parseOverviewFmt lines = .ok (lines.map fmtNameOf) ↔
      (7 ≤ lines.length ∧ (lines.map fmtNameOf).take 7 = DEFAULT_OVERVIEW_FMT)) := by
  unfold parseOverviewFmt
  simp only [List.length_map]
  rw [show DEFAULT_OVERVIEW_FMT.length = 7 from rfl]
  constructor
  · split_ifs with h1 h2
    · exact Or.inr ⟨msgFmtTooShort, rfl⟩
    · exact Or.inr ⟨msgFmtRedef, rfl⟩
    · exact Or.inl rfl
  · split_ifs with h1 h2
    · constructor
      · intro hcontra; exact absurd hcontra (by simp)
      · rintro ⟨ha, hb⟩; omega
    · constructor
      · intro hcontra; exact absurd hcontra (by simp)
      · rintro ⟨ha, hb⟩
        have hb' := beq_iff_eq.mpr hb
        rw [hb'] at h2
        exact absurd h2 (by simp)
    · constructor
      · intro _
        refine ⟨by omega, ?_⟩
        have h2' : ((lines.map fmtNameOf).take 7 == DEFAULT_OVERVIEW_FMT) = true := by
          rcases Bool.eq_false_or_eq_true ((lines.map fmtNameOf).take 7 ==
              DEFAULT_OVERVIEW_FMT) with h | h
          · exact h
          · exact absurd (by simp [h]) h2
        exact beq_iff_eq.mp h2'
      · intro _; rfl

/-- A classified-as-success response line is returned by `_getresp`. -/
theorem getresp_ok_of_head (l : Line) (rest : Stream)
    (hok : (jsTrim l).head? = some '1' ∨ (jsTrim l).head? = some '2' ∨
      (jsTrim l).head? = some '3') :
    getresp (l :: rest) = .ok (jsTrim l) rest := by
  dsimp only [getresp, getline]
  generalize hr : jsTrim l = r
  rw [hr] at hok
  rcases r with _ | ⟨c, t⟩
  · simp at hok
  · rcases hok with h | h | h <;>
      (simp only [List.head?_cons, Option.some_inj] at h; subst h;
       simp [isPrefixOf_singleton])

/-- C7 (amended).  For a classified reply to `DATE`: a reply not starting
with `111` raises an `NNTPReplyError`; a `111` reply with a number of
space-separated tokens other than two, or whose second token is not exactly
fourteen characters, raises an `NNTPDataError`; a `111` reply with a
fourteen-character second token (digits are not verified) returns the
parsed timestamp, the session state unchanged and usable. -/
theorem date_checks (st : NNTPState) (l : Line) (rest : Stream)
    (hc : st.connected = true)
    (hok : (jsTrim l).head? = some '1' ∨ (jsTrim l).head? = some '2' ∨
      (jsTrim l).head? = some '3') :
    (((str "111").isPrefixOf (jsTrim l)) = false →
        date st (l :: rest) = .err (.reply (jsTrim l)) st rest [cmdDATE]) ∧
    (((str "111").isPrefixOf (jsTrim l)) = true →
      ((jsSplitChar ' ' (jsTrim l)).length ≠ 2 →
        date st (l :: rest) = .err (.data (jsTrim l)) st rest [cmdDATE]) ∧
      (∀ a b : Line, jsSplitChar ' ' (jsTrim l) = [ a, b ] →
        (b.length ≠ 14 →
          date st (l :: rest) = .err (.data (jsTrim l)) st rest [cmdDATE]) ∧
        (b.length = 14 →
          date st (l :: rest) =
            .ok (jsTrim l, parseDateString b) st rest [cmdDATE]))) := by
  have hresp := getresp_ok_of_head l rest hok
  unfold date shortcmd
  rw [hc, hresp]
  simp only [Bool.not_true, Bool.false_eq_true, if_false]
  constructor
  · intro hpre
    simp [hpre]
  · intro hpre
    simp only [hpre, Bool.not_true, Bool.false_eq_true, if_false]
    constructor
    · intro hlen
      rw [if_pos hlen]
    · intro a b hsplit
      rw [hsplit]
      constructor
      · intro hblen
        rw [if_neg (by simp)]
        simp only [List.getD]
        rw [if_pos (by simpa using hblen)]
      · intro hblen
        rw [if_neg (by simp)]
        simp only [List.getD]
        rw [if_neg (by simpa using hblen)]
        rfl

/-- C7 (counterexample to the claim as stated).  A `112` reply deviates from
the expected form but raises an `NNTPReplyError`, not the claimed
`DataError`; and a `111` reply whose fourteen characters are not digits is
accepted without any error. -/
theorem date_counterexample :
    date { initialState with connected := true } [str "112 20240101123456"] =
      .err (.reply (str "112 20240101123456"))
        { initialState with connected := true } [] [cmdDATE] ∧
    NNTPErr.isData (.reply (str "112 20240101123456")) = false ∧
    date { initialState with connected := true } [str "111 abcdefghijklmn"] =
      .ok (str "111 abcdefghijklmn", parseDateString (str "abcdefghijklmn"))
        { initialState with connected := true } [] [cmdDATE] := by decide

/-- C7 witness: a conforming `111` reply parses into its timestamp. -/
theorem date_checks_witness :
    date { initialState with connected := true } [str "111 20240101123456"] =
      .ok (str "111 20240101123456", parseDateString (str "20240101123456"))
        { initialState with connected := true } [] [cmdDATE] :=
  (((date_checks { initialState with connected := true } (str "111 20240101123456") []
      (by decide) (by decide)).2 (by decide)).2 (str "111") (str "20240101123456")
      (by decide)).2 (by decide)

/-- C6 (counterexample to the claim as stated).  A record whose value for
the eighth (non-metadatum) descriptor entry is the empty string lacks the
mandatory `distribution: ` prefix, yet the parser succeeds and assigns the
empty value instead of failing with a `DataError`. -/
theorem overview_prefix_claim_counterexample :
    parseOverview [str "7\ta\tb\tc\td\te\t1\t2\t"]
        (DEFAULT_OVERVIEW_FMT ++ [ str "distribution" ]) =
      .ok [(some 7, [(str "subject", str "a"), (str "from", str "b"),
        (str "date", str "c"), (str "message-id", str "d"), (str "references", str "e"),
        (str ":bytes", str "1"), (str ":lines", str "2"),
        (str "distribution", [])])] := by decide

theorem lowerL_take (s : Line) (n : Nat) :
    lowerL (s.take n) = (lowerL s).take n := by
  simp [lowerL, List.map_take]

theorem lowerL_append (s t : Line) : lowerL (s ++ t) = lowerL s ++ lowerL t := by
  simp [lowerL]

theorem specAssign_cons_ok (i : Nat) (fields : List (Line × Line)) (name tok : Line)
    (rest : List (Line × Line)) (w : Line) (hv : specFieldValue i name tok = .ok w) :
    specAssign i fields ((name, tok) :: rest) =
      specAssign (i + 1) (setKey fields name w) rest := by
  show (match specFieldValue i name tok with
    | PRes.err e => (PRes.err e : PRes (List (Line × Line)))
    | PRes.ok v => specAssign (i + 1) (setKey fields name v) rest) = _
  rw [hv]

theorem specAssign_cons_err (i : Nat) (fields : List (Line × Line)) (name tok : Line)
    (rest : List (Line × Line)) (e : NNTPErr) (hv : specFieldValue i name tok = .err e) :
    specAssign i fields ((name, tok) :: rest) = .err e := by
  show (match specFieldValue i name tok with
    | PRes.err e => (PRes.err e : PRes (List (Line × Line)))
    | PRes.ok v => specAssign (i + 1) (setKey fields name v) rest) = _
  rw [hv]

theorem overFields_spec (fmt : List Line) (hlow : ∀ name ∈ fmt, lowerL name = name) :
    ∀ (toks : List Line) (i : Nat) (fields : List (Line × Line)),
      overFields fmt i fields toks = specAssign i fields ((fmt.drop i).zip toks) := by
  intro toks
  induction toks with
  | nil =>
    intro i fields
    cases fmt.drop i <;> simp [overFields, specAssign]
  | cons tok toks ih =>
    intro i fields
    by_cases hi : fmt.length ≤ i
    · rw [List.drop_eq_nil_of_le hi]
      unfold overFields
      rw [if_pos hi, ih (i + 1) fields, List.drop_eq_nil_of_le (by omega)]
      simp [specAssign]
    · push_neg at hi
      have hnot : ¬ fmt.length ≤ i := by omega
      have hdrop : fmt.drop i = fmt[i] :: fmt.drop (i + 1) :=
        List.drop_eq_getElem_cons hi
      have hgetD : fmt.getD i [] = fmt[i] := by
        rw [List.getD_eq_getElem?_getD, List.getElem?_eq_getElem hi]
        rfl
      have hmemf : fmt[i] ∈ fmt := List.getElem_mem hi
      rw [hdrop, List.zip_cons_cons]
      by_cases hck : DEFAULT_OVERVIEW_FMT.length ≤ i ∧ ¬(fmt[i].head? = some ':')
      · have hmeta : isMetadatumName fmt[i] = false := by
          unfold isMetadatumName
          exact beq_eq_false_iff_ne.mpr hck.2
        by_cases htok : tok = []
        · subst htok
          rw [specAssign_cons_ok i fields fmt[i] [] _ [] (by
            unfold specFieldValue
            rw [if_neg (by simp)])]
          unfold overFields
          rw [if_neg hnot]
          try dsimp only
          rw [hgetD, if_pos hck]
          try dsimp only
          rw [if_neg (by simp), if_neg (by simp)]
          exact ih (i + 1) (setKey fields fmt[i] [])
        · have hp : lowerL (fmt[i] ++ str ": ") = fmt[i] ++ str ": " := by
            rw [lowerL_append, hlow fmt[i] hmemf]
            rfl
          by_cases hmis : (lowerL tok).take (fmt[i] ++ str ": ").length =
              fmt[i] ++ str ": "
          · rw [specAssign_cons_ok i fields fmt[i] tok _
              (tok.drop (fmt[i] ++ str ": ").length) (by
                unfold specFieldValue
                rw [if_pos (And.intro hck.1 (And.intro hmeta htok))]
                try dsimp only
                rw [if_pos (by rw [lowerL_take, hp]; exact hmis)])]
            unfold overFields
            rw [if_neg hnot]
            try dsimp only
            rw [hgetD, if_pos hck]
            try dsimp only
            rw [if_neg (by intro hx; exact hx.2 (by simpa using hmis)), if_pos htok]
            exact ih (i + 1) (setKey fields fmt[i] (tok.drop (fmt[i] ++ str ": ").length))
          · rw [specAssign_cons_err i fields fmt[i] tok _ (.data msgOverMissing) (by
              unfold specFieldValue
              rw [if_pos (And.intro hck.1 (And.intro hmeta htok))]
              try dsimp only
              rw [if_neg (by rw [lowerL_take, hp]; exact hmis)])]
            unfold overFields
            rw [if_neg hnot]
            try dsimp only
            rw [hgetD, if_pos hck]
            try dsimp only
            rw [if_pos (And.intro htok hmis)]
      · have hnotspec : ¬ (DEFAULT_OVERVIEW_FMT.length ≤ i ∧
            isMetadatumName fmt[i] = false ∧ tok ≠ []) := by
          intro hx
          exact hck ⟨hx.1, beq_eq_false_iff_ne.mp
            (by simpa [isMetadatumName] using hx.2.1)⟩
        rw [specAssign_cons_ok i fields fmt[i] tok _ tok (by
          unfold specFieldValue
          rw [if_neg hnotspec])]
        unfold overFields
        rw [if_neg hnot]
        try dsimp only
        rw [hgetD, if_neg hck]
        exact ih (i + 1) (setKey fields fmt[i] tok)

/-- C6 (amended).  The overview parser agrees with the spec-worded record
parser (split on TAB, article number from the first field, positional
assignment up to the descriptor length, and the case-insensitive
`name: ` prefix check with strip for non-metadatum entries at index at
least seven, bypassed for empty raw values) for every lowercase
descriptor. -/
theorem overview_parser_refinement (lines fmt : List Line)
    (hlow : ∀ name ∈ fmt, lowerL name = name) :
    parseOverview lines fmt = specParseOverview lines fmt := by
  induction lines with
  | nil => rfl
  | cons line more ih =>
    unfold parseOverview specParseOverview
    dsimp only
    rw [overFields_spec fmt hlow ((jsSplitChar '\t' line).tail) 0 [],
      List.drop_zero, ih]

/-- C6 witness: the refinement at the default descriptor extended with
`xref`, on a record carrying the `Xref: ` prefix. -/
theorem overview_parser_refinement_witness :
    (∀ name ∈ DEFAULT_OVERVIEW_FMT ++ [ str "xref" ], lowerL name = name) ∧
    parseOverview [str "9\tS2\tF2\tD2\tM2\tR2\t5\t6\tXref: host a.b:1"]
        (DEFAULT_OVERVIEW_FMT ++ [ str "xref" ]) =
      specParseOverview [str "9\tS2\tF2\tD2\tM2\tR2\t5\t6\tXref: host a.b:1"]
        (DEFAULT_OVERVIEW_FMT ++ [ str "xref" ]) :=
  ⟨by decide, overview_parser_refinement _ _ (by decide)⟩

/-- The capability reload on an absent cache: it always returns, preserves
the readermode flag and connection flag, writes exactly `CAPABILITIES` when
connected, and never writes `mode reader`. -/
theorem getcap_none_spec (st : NNTPState) (stream : Stream) (h : st.caps = none) :
    ∃ (caps : Caps) (st2 : NNTPState) (rest : Stream) (sent : List Line),
      getcapabilities st stream = .ok caps st2 rest sent ∧
      st2.readermodeAfterauth = st.readermodeAfterauth ∧
      st2.connected = st.connected ∧
      (st.connected = true → sent = [cmdCapabilities]) ∧
      cmdModeReader ∉ sent := by
  unfold getcapabilities
  rw [h]
  dsimp only
  unfold capabilities longcmdstring
  by_cases hconn : st.connected = true
  · rw [if_neg (by simp [hconn])]
    cases hg : getlongresp stream with
    | ok rl rest =>
      refine ⟨_, _, _, _, rfl, rfl, rfl, fun _ => rfl, by decide⟩
    | err e rest =>
      refine ⟨_, _, _, _, rfl, rfl, rfl, fun _ => rfl, by decide⟩
  · rw [if_pos (by simp [Bool.not_eq_true] at hconn; simp [hconn])]
    refine ⟨_, _, _, _, rfl, rfl, rfl, fun hx => absurd hx hconn, by decide⟩

theorem loginTail_spec (st : NNTPState) (stream : Stream) (sent : List Line)
    (hrma : st.readermodeAfterauth = false) :
    ∃ st2 rest s2, loginTail st stream sent = .ok () st2 rest (sent ++ s2) ∧
      (st.connected = true → s2 = [cmdCapabilities]) := by
  unfold loginTail
  dsimp only
  obtain ⟨caps, st2, rest, s2, heq, hp1, hp2, hp3, hp4⟩ :=
    getcap_none_spec { st with caps := none } stream rfl
  simp only at hp1 hp2 hp3
  rw [heq]
  dsimp only
  rw [if_neg (by intro hx; rw [hp1, hrma] at hx; simp at hx)]
  exact ⟨st2, rest, s2, rfl, hp3⟩

theorem login_sends_caps (st : NNTPState) (user password : Option Line)
    (stream : Stream) (x : Unit) (st2 : NNTPState) (rest : Stream) (sent : List Line)
    (hrma : st.readermodeAfterauth = false)
    (hlogin : login st user password stream = .ok x st2 rest sent) :
    cmdCapabilities ∈ sent := by
  unfold login at hlogin
  by_cases hauth : st.authenticated = true
  · rw [if_pos hauth] at hlogin; exact absurd hlogin (by simp)
  rw [if_neg hauth] at hlogin
  by_cases huser : user.getD [] = []
  · rw [if_pos huser] at hlogin; exact absurd hlogin (by simp)
  rw [if_neg huser] at hlogin
  unfold shortcmd at hlogin
  by_cases hconn : st.connected = true
  case neg =>
    rw [if_pos (by simp [Bool.not_eq_true] at hconn; simp [hconn])] at hlogin
    exact absurd hlogin (by simp)
  case pos =>
    rw [if_neg (by simp [hconn])] at hlogin
    cases hg : getresp stream with
    | err e rest1 => rw [hg] at hlogin; exact absurd hlogin (by simp)
    | ok resp rest1 =>
      rw [hg] at hlogin
      dsimp only at hlogin
      by_cases h381 : (str "381") <+: resp
      · rw [if_pos (by simp [List.isPrefixOf_iff_prefix, h381])] at hlogin
        by_cases hpw : password.getD [] = []
        · rw [if_pos hpw] at hlogin; exact absurd hlogin (by simp)
        rw [if_neg hpw] at hlogin
        rw [if_neg (by simp [hconn])] at hlogin
        cases hg2 : getresp rest1 with
        | err e rest2 => rw [hg2] at hlogin; exact absurd hlogin (by simp)
        | ok resp2 rest2 =>
          rw [hg2] at hlogin
          dsimp only at hlogin
          by_cases h281 : (str "281") <+: resp2
          case neg =>
            rw [if_pos (by
              have hb2 : List.isPrefixOf (str "281") resp2 = false := by
                cases hb : List.isPrefixOf (str "281") resp2
                · rfl
                · exact absurd (List.isPrefixOf_iff_prefix.mp hb) h281
              rw [hb2]
              rfl)] at hlogin
            exact absurd hlogin (by simp)
          case pos =>
            rw [if_neg (by simp [List.isPrefixOf_iff_prefix, h281])] at hlogin
            obtain ⟨st3, rest3, s2, heq, hs⟩ := loginTail_spec st rest2
              ([cmdAuthinfoUser (user.getD [])] ++ [cmdAuthinfoPass (password.getD [])]) hrma
            rw [heq] at hlogin
            have hsent : sent = [cmdAuthinfoUser (user.getD [])] ++
                [cmdAuthinfoPass (password.getD [])] ++ s2 := by
              cases hlogin
              rfl
            rw [hsent, hs hconn]
            simp
      · rw [if_neg (by simp [List.isPrefixOf_iff_prefix, h381])] at hlogin
        obtain ⟨st3, rest3, s2, heq, hs⟩ := loginTail_spec st rest1
          [cmdAuthinfoUser (user.getD [])] hrma
        rw [heq] at hlogin
        have hsent : sent = [cmdAuthinfoUser (user.getD [])] ++ s2 := by
          cases hlogin
          rfl
        rw [hsent, hs hconn]
        simp

theorem starttls_sends_caps (st : NNTPState) (stream : Stream) (x : Unit)
    (st2 : NNTPState) (rest : Stream) (sent : List Line)
    (hst : starttls st stream = .ok x st2 rest sent) :
    cmdCapabilities ∈ sent := by
  unfold starttls at hst
  by_cases htls : st.tlsOn = true
  · rw [if_pos htls] at hst; exact absurd hst (by simp)
  rw [if_neg htls] at hst
  by_cases hauth : st.authenticated = true
  · rw [if_pos hauth] at hst; exact absurd hst (by simp)
  rw [if_neg hauth] at hst
  unfold shortcmd at hst
  by_cases hconn : st.connected = true
  case neg =>
    rw [if_pos (by simp [Bool.not_eq_true] at hconn; simp [hconn])] at hst
    exact absurd hst (by simp)
  case pos =>
    rw [if_neg (by simp [hconn])] at hst
    cases hg : getresp stream with
    | err e rest1 => rw [hg] at hst; exact absurd hst (by simp)
    | ok resp rest1 =>
      rw [hg] at hst
      dsimp only at hst
      by_cases h382 : (str "382") <+: resp
      case neg =>
        rw [if_neg (by simp [List.isPrefixOf_iff_prefix, h382])] at hst
        exact absurd hst (by simp)
      case pos =>
        rw [if_pos (by simp [List.isPrefixOf_iff_prefix, h382])] at hst
        try dsimp only at hst
        obtain ⟨caps, st3, rest3, s2, heq, hp1, hp2, hp3, hp4⟩ :=
          getcap_none_spec { st with connected := true, tlsOn := true, caps := none }
            rest1 rfl
        rw [heq] at hst
        have hsent : sent = [cmdSTARTTLS] ++ s2 := by
          cases hst
          rfl
        rw [hsent, hp3 rfl]
        simp

theorem setreadermode_ok_spec (st : NNTPState) (stream : Stream) (x : Unit)
    (st2 : NNTPState) (rest : Stream) (sent : List Line)
    (h : setreadermode st stream = .ok x st2 rest sent) :
    st.connected = true ∧ st2.connected = true ∧ sent = [cmdModeReader] := by
  unfold setreadermode shortcmd at h
  by_cases hconn : st.connected = true
  case neg =>
    rw [if_pos (by simp [Bool.not_eq_true] at hconn; simp [hconn])] at h
    dsimp only at h
    rw [if_neg (by decide)] at h
    exact absurd h (by simp)
  case pos =>
    rw [if_neg (by simp [hconn])] at h
    cases hg : getresp stream with
    | ok resp r =>
      rw [hg] at h
      dsimp only at h
      injection h with h1 h2 h3 h4
      subst h2
      exact ⟨hconn, hconn, h4.symm⟩
    | err e r =>
      rw [hg] at h
      dsimp only at h
      cases hb : ((str "480").isPrefixOf e.message) with
      | true =>
        rw [if_pos hb] at h
        injection h with h1 h2 h3 h4
        subst h2
        exact ⟨hconn, hconn, h4.symm⟩
      | false =>
        rw [if_neg (by simp [hb])] at h
        exact absurd h (by simp)

theorem connect_modereader_reloads (st : NNTPState) (stream : Stream) (x : Unit)
    (st2 : NNTPState) (rest : Stream) (sent : List Line)
    (hc : connect st true stream = .ok x st2 rest sent)
    (hmr : cmdModeReader ∈ sent)
    (hrma : st2.readermodeAfterauth = false) :
    2 ≤ sent.count cmdCapabilities := by
  unfold connect at hc
  cases hg : getresp stream with
  | err e rest1 => rw [hg] at hc; exact absurd hc (by simp)
  | ok welcome rest1 =>
    rw [hg] at hc
    dsimp only at hc
    obtain ⟨caps1, stA, restA, s1, heq1, hpA1, hpA2, hpA3, hnin1⟩ :=
      getcap_none_spec { st with welcome := welcome, caps := none } rest1 rfl
    simp only at hpA1 hpA2 hpA3
    rw [heq1] at hc
    dsimp only at hc
    by_cases hrd : getKey caps1 capREADER = none
    case neg =>
      rw [if_neg (by intro hx; exact hrd hx.2)] at hc
      injection hc with h1 h2 h3 h4
      subst h4
      exact absurd hmr hnin1
    case pos =>
      rw [if_pos (And.intro rfl hrd)] at hc
      cases hs : setreadermode { stA with readermodeAfterauth := false } restA with
      | err e st3 rest3 s2 => rw [hs] at hc; exact absurd hc (by simp)
      | ok x3 st3 rest3 s2 =>
        rw [hs] at hc
        dsimp only at hc
        obtain ⟨hcB, hc3, hs2⟩ := setreadermode_ok_spec _ _ _ _ _ _ hs
        simp only at hcB
        by_cases hr3 : st3.readermodeAfterauth = true
        · rw [if_neg (by simp [hr3])] at hc
          injection hc with h1 h2 h3 h4
          rw [← h2] at hrma
          simp [hr3] at hrma
        · rw [if_pos (by simp [Bool.not_eq_true] at hr3; simp [hr3])] at hc
          obtain ⟨caps2, st4, rest4, s3, heq2, hp41, hp42, hp43, hnin2⟩ :=
            getcap_none_spec { st3 with caps := none } rest3 rfl
          simp only at hp43
          rw [heq2] at hc
          injection hc with h1 h2 h3 h4
          subst h4
          rw [hpA3 (hpA2.symm.trans hcB), hs2, hp43 hc3]
          decide

/-- C4.  The capability cache and its invalidation: a cached map is served
without wire traffic; an absent cache makes the next capability query issue
exactly `CAPABILITIES`; and each of a successful login, a successful
`STARTTLS`, and a successful `MODE READER` transition inside `connect`
leads to a fresh `CAPABILITIES` on the wire rather than a stale cache (for
`connect`, a second `CAPABILITIES` beyond the connect-time one). -/
theorem capability_cache_invalidation :
    (∀ (st : NNTPState) (m : Caps) (stream : Stream), st.caps = some m →
      getcapabilities st stream = .ok m st stream []) ∧
    (∀ (st : NNTPState) (stream : Stream), st.caps = none → st.connected = true →
      (getcapabilities st stream).sentOf = [cmdCapabilities]) ∧
    (∀ (st : NNTPState) (user password : Option Line) (stream : Stream)
      (x : Unit) (st2 : NNTPState) (rest : Stream) (sent : List Line),
      st.readermodeAfterauth = false →
      login st user password stream = .ok x st2 rest sent →
      cmdCapabilities ∈ sent) ∧
    (∀ (st : NNTPState) (stream : Stream) (x : Unit) (st2 : NNTPState)
      (rest : Stream) (sent : List Line),
      starttls st stream = .ok x st2 rest sent → cmdCapabilities ∈ sent) ∧
    (∀ (st : NNTPState) (stream : Stream) (x : Unit) (st2 : NNTPState)
      (rest : Stream) (sent : List Line),
      connect st true stream = .ok x st2 rest sent → cmdModeReader ∈ sent →
      st2.readermodeAfterauth = false → 2 ≤ sent.count cmdCapabilities) := by
  refine ⟨?_, ?_, ?_, ?_, ?_⟩
  · intro st m stream h
    unfold getcapabilities
    rw [h]
  · intro st stream h hconn
    obtain ⟨c, s2, r, sn, heq, hp1, hp2, hp3, hp4⟩ := getcap_none_spec st stream h
    rw [heq]
    exact hp3 hconn
  · exact login_sends_caps
  · exact starttls_sends_caps
  · exact connect_modereader_reloads

/-- C4 witness: concrete runs of a cached query, an uncached query, a
two-step login, a `STARTTLS` upgrade, and a reconnect negotiating reader
mode, each exercising one clause of the invalidation theorem. -/
theorem capability_cache_invalidation_witness :
    getcapabilities { initialState with connected := true,
                                        caps := some [(capREADER, [])] } [] =
      .ok [(capREADER, [])] { initialState with connected := true,
                                                caps := some [(capREADER, [])] }
        [] [] ∧
    (getcapabilities { initialState with connected := true }
      [str "500 x"]).sentOf = [cmdCapabilities] ∧
    cmdCapabilities ∈ [cmdAuthinfoUser (str "alice"),
      cmdAuthinfoPass (str "s3cret"), cmdCapabilities] ∧
    cmdCapabilities ∈ [cmdSTARTTLS, cmdCapabilities] ∧
    2 ≤ ([cmdCapabilities, cmdModeReader, cmdCapabilities].count cmdCapabilities) :=
  ⟨capability_cache_invalidation.1 _ [(capREADER, [])] [] rfl,
   capability_cache_invalidation.2.1 { initialState with connected := true }
     [str "500 x"] rfl rfl,
   capability_cache_invalidation.2.2.1 { initialState with connected := true }
     (some (str "alice")) (some (str "s3cret"))
     [str "381 pw", str "281 ok", str "101 caps", str "VERSION 2", str "."] ()
     { initialState with connected := true,
                         caps := some [(str "VERSION", [str "2"])],
                         nntpVersion := 2 } []
     [cmdAuthinfoUser (str "alice"), cmdAuthinfoPass (str "s3cret"),
      cmdCapabilities] rfl (by decide),
   capability_cache_invalidation.2.2.2.1 { initialState with connected := true }
     [str "382 go", str "101 ok", str "."] ()
     { initialState with connected := true, tlsOn := true, caps := some [] } []
     [cmdSTARTTLS, cmdCapabilities] (by decide),
   capability_cache_invalidation.2.2.2.2 { initialState with connected := true }
     [str "200 hi", str "101 caps", str "VERSION 2", str ".", str "200 reader",
      str "101 caps2", str "READER", str "."] ()
     { initialState with welcome := str "200 reader",
                         caps := some [(str "READER", [])],
                         connected := true } []
     [cmdCapabilities, cmdModeReader, cmdCapabilities]
     (by decide) (by decide) (by decide)⟩

end NNTPSpec